import Mathlib

/-!
Shallow embedding of the `systemd-journal` Go bindings
(package `journal`, repository `vargspjut/systemd-journal`).

The native sd-journal C library is treated as an oracle: each embedded
operation takes the results the C calls would produce as explicit inputs
and reproduces the Go control flow over them.  Go `string` is modelled as
Lean `String`, Go integers as `Int`/`Nat` with explicit wrap-around where
Go converts between signed and unsigned types, Go `error` results as
`Except`/`Option`.
-/

namespace SystemdJournal

/-! ### Field catalog (journal.go, predefined field names) -/

def FieldPriority : String := "PRIORITY"

def FieldMessage : String := "MESSAGE"

/-! ### Submit adapter (submit file: `Submit`, `SubmitWithFields`)

Go `Fields` is `map[string]string`; it is modelled as an association list
with unique keys.  Iteration order of a Go map is unspecified; the model
iterates in list order, which only affects which validation error message
surfaces first and the order of the iovec entries, neither of which any
claim depends on.  An `Except.ok l` result models exactly one native
`sd_journal_sendv` call whose iovec holds the strings in `l`; an
`Except.error e` result models returning the error `e` with no native
write call made at all. -/

abbrev Fields := List (String × String)

/-- Go map membership test `_, ok := f[k]`. -/
def fieldsHas (f : Fields) (k : String) : Bool :=
  (f.lookup k).isSome

/-- Field-name validation performed inside the iteration loop of
`SubmitWithFields`: empty name (`k == ""`), reserved leading underscore
(`k[0] == '_'`), and the upper-case rule (`strings.ToUpper(k) != k`).
The checks are written over the character list of the string; `Go`'s
Unicode `strings.ToUpper` is modelled by the per-character upper-casing,
which agrees with it on the ASCII field names the journal accepts.
Returns the error produced, or `none` when the name is accepted. -/
def validateField (k : String) : Option String :=
  if k.data = [] then some "Field name must not be empty"
  else if k.data.head? = some '_' then
    some "Field name must not begin with the character _"
  else if k.data.map Char.toUpper ≠ k.data then some "Field name must be upper-case"
  else none

/-- The loop body of `SubmitWithFields`: validate every field and build the
`NAME=value` iovec strings; the first invalid field aborts with its
validation error, before the single `sd_journal_sendv` call. -/
def buildIovec : Fields → Except String (List String)
  | [] => Except.ok []
  | (k, v) :: rest =>
    match validateField k with
    | some e => Except.error e
    | none =>
      match buildIovec rest with
      | Except.error e => Except.error e
      | Except.ok l => Except.ok ((k ++ "=" ++ v) :: l)

/-- Go `if _, ok := f[k]; !ok { f[k] = v }`: insert a default field only
when the key is absent. -/
def addDefault (f : Fields) (k v : String) : Fields :=
  if fieldsHas f k then f else f ++ [(k, v)]

/-- Go `SubmitWithFields(p Priority, m string, f Fields)`.  A `nil` map is
replaced by an empty one; the priority and message arguments are inserted
only when the caller-supplied map does not already define
`PRIORITY` / `MESSAGE`; then every field is validated and on success the
iovec list of the single native write is returned. -/
def SubmitWithFields (p : Int) (m : String) (f0 : Option Fields) :
    Except String (List String) :=
  let f1 : Fields := match f0 with | none => [] | some f => f
  buildIovec (addDefault (addDefault f1 FieldPriority (toString p)) FieldMessage m)

/-- Go `Submit(p, m)` delegates to `SubmitWithFields` with an empty map. -/
def Submit (p : Int) (m : String) : Except String (List String) :=
  SubmitWithFields p m (some [])

/-! ### Wait (journal.go `Wait`)

`Wait` converts its `time.Duration` timeout (an `int64` count of
nanoseconds) into the `uint64` microsecond argument of `sd_journal_wait`:
the exact value `-1` is mapped to `math.MaxUint64`, every other value goes
through Go integer division by `time.Microsecond` (truncation toward
zero) followed by a `uint64` conversion (two's-complement wrap). -/

/-- Go `uint64(x)` conversion of a signed 64-bit value. -/
def uint64Of (x : Int) : Nat :=
  (x % (2 : Int) ^ 64).toNat

/-- Timeout conversion performed by `Wait` before calling
`sd_journal_wait` (journal.go lines 397-403). -/
def waitTimeoutToUsec (timeout : Int) : Nat :=
  if timeout = -1 then 2 ^ 64 - 1
  else uint64Of (timeout.tdiv 1000)

/-- Outcome classification of a wait (journal.go `WakeupEvent`). -/
inductive WakeupEvent where
  | noOperation
  | append
  | invalidate
deriving DecidableEq

/-- Go `Wait(timeout)`: the native result for the converted timeout is
supplied by the oracle `native`; the pair returned is the native timeout
actually passed to `sd_journal_wait` together with the Go result.  A
negative native return is an error; 0/1/2 map to the three events and the
Go `switch` leaves the zero value `NoOperation` for any other value. -/
def Wait (native : Nat → Int) (timeout : Int) :
    Nat × Except String WakeupEvent :=
  let t := waitTimeoutToUsec timeout
  let ret := native t
  (t,
    if ret < 0 then Except.error "failed to wait for journal change"
    else if ret = 0 then Except.ok WakeupEvent.noOperation
    else if ret = 1 then Except.ok WakeupEvent.append
    else if ret = 2 then Except.ok WakeupEvent.invalidate
    else Except.ok WakeupEvent.noOperation)

/-! ### Connection close semantics (journal.go `Close`, `Next`)

The Go `Journal` struct holds the raw `*C.struct_sd_journal` and a mutex;
it has no field recording whether `Close` was already called.  The model
counts the native calls issued so that release-twice behaviour is
observable.  `JErr.closedHandle` is the terminal error the specification
says post-close operations fail with; it exists in the error type solely
so that theorems can state whether the code ever produces it. -/

structure GoJournal where
  closeCalls : Nat
  nextCalls : Nat
deriving DecidableEq

/-- Error domain for Connection operations. `closedHandle` is the
specification's `ClosedHandle` category; `native` wraps an errno-style
message coming back from the C library. -/
inductive JErr where
  | closedHandle
  | native (msg : String)
deriving DecidableEq

/-- Go `Close()`: lock the mutex, call `sd_journal_close`, unlock.  The
native close is invoked unconditionally on every call. -/
def Close (j : GoJournal) : GoJournal :=
  { j with closeCalls := j.closeCalls + 1 }

/-- Go `Next()`: lock, call `sd_journal_next` (its return value is supplied
by the oracle `nativeNext`), unlock; a negative return becomes an error,
otherwise the moved count is returned.  No closed-state check exists. -/
def Next (nativeNext : GoJournal → Int) (j : GoJournal) :
    GoJournal × Except JErr Nat :=
  let ret := nativeNext j
  let j' := { j with nextCalls := j.nextCalls + 1 }
  if ret < 0 then (j', Except.error (JErr.native "failed to move to next entry"))
  else (j', Except.ok ret.toNat)

/-! ### Match model and `AddMatch` (journal.go lines 436-473)

The `Match` builder file only contributes the shape of the data
(`m.expr`, each node carrying `op`, `field`, `values`); `AddMatch` itself
is fully present in the source.  A `NativeFilterOp` records one native
filter-stack call: `sd_journal_add_match`, `sd_journal_add_conjunction`
or `sd_journal_add_disjunction`. -/

inductive MatchOp where
  | opField
  | opAnd
  | opOr
deriving DecidableEq

structure MatchExpr where
  op : MatchOp
  field : String
  values : List String
deriving DecidableEq

structure Match where
  expr : List MatchExpr
deriving DecidableEq

inductive NativeFilterOp where
  | addMatch (s : String)
  | conjunction
  | disjunction
deriving DecidableEq

/-- Native calls produced for one expression node: a field node pushes one
`FIELD=value` match per value, `And`/`Or` push a conjunction/disjunction
marker. -/
def compileExpr (e : MatchExpr) : List NativeFilterOp :=
  match e.op with
  | MatchOp.opField => e.values.map (fun v => NativeFilterOp.addMatch (e.field ++ "=" ++ v))
  | MatchOp.opAnd => [NativeFilterOp.conjunction]
  | MatchOp.opOr => [NativeFilterOp.disjunction]

/-- Native calls produced for a whole expression list, in declaration
order. -/
def compileMatch : List MatchExpr → List NativeFilterOp
  | [] => []
  | e :: rest => compileExpr e ++ compileMatch rest

/-- Filter-related state of a `Journal`: the native filter stack (as the
sequence of native calls accepted by the library) and the retained
`matches` slice (field renamed `matchList`: `matches` is reserved in Lean) kept for later cloning by `Follow`. -/
structure JFilterState where
  nativeStack : List NativeFilterOp
  matchList : List Match
deriving DecidableEq

/-- Loop of `AddMatch` over `m.expr`.  Per iteration a fresh `ret`
variable starts at zero, every native call of the node is issued (and so
pushed), and only the value of the last native call of the node is
checked — exactly as in the Go `switch` whose inner loop overwrites
`ret`.  When the list is exhausted the match is appended to the retained
list. -/
def addMatchLoop (native : NativeFilterOp → Int) (j : JFilterState) (m : Match) :
    List MatchExpr → JFilterState × Except String Unit
  | [] => ({ j with matchList := j.matchList ++ [m] }, Except.ok ())
  | e :: rest =>
    let ops := compileExpr e
    let j' : JFilterState := { j with nativeStack := j.nativeStack ++ ops }
    let ret : Int := ops.foldl (fun _ op => native op) 0
    if ret < 0 then (j', Except.error "failed to add match")
    else addMatchLoop native j' m rest

/-- Go `AddMatch(m *Match)`: a `nil` match or one with no expression nodes
is rejected before touching either the native stack or the retained
list. -/
def AddMatch (native : NativeFilterOp → Int) (j : JFilterState) (m : Option Match) :
    JFilterState × Except String Unit :=
  match m with
  | none => (j, Except.error "no match expression to add")
  | some mm =>
    if mm.expr = [] then (j, Except.error "no match expression to add")
    else addMatchLoop native j mm mm.expr

/-! ### ReadEntry (journal.go lines 317-376)

The native calls made by `ReadEntry` — realtime timestamp, monotonic
timestamp, cursor, and the `sd_journal_enumerate_data` stream — are
supplied by a `REOracle`.  `fieldData` lists the successive enumeration
results; the list ending models the final `ret == 0`.  The Go code builds
the `Entry` in place but returns `nil` together with the error on every
failure path, so externally the result is exactly an `Except`. -/

/-- Decoded journal entry (journal.go `Entry`).  `timestamp` is the Go
`time.Unix(0, usec*1000)` value in nanoseconds; `elapsed` is the Go
`time.Duration(int64(usec))`, i.e. the raw microsecond count reinterpreted
as a nanosecond duration, exactly as the code does. -/
structure Entry where
  fields : Fields
  cursor : String
  timestamp : Nat
  elapsed : Nat
deriving DecidableEq

/-- Go map assignment `entry.Fields[k] = v`: overwrite the existing key or
append a new one. -/
def mapSet : Fields → String → String → Fields
  | [], k, v => [(k, v)]
  | (k1, v1) :: rest, k, v =>
    if k1 = k then (k1, v) :: rest else (k1, v1) :: mapSet rest k v

/-- Go `strings.SplitN(msg, "=", 2)` followed by the length check: the key
is everything before the first `=`, the value everything after it
(later `=` characters preserved verbatim); a record without `=` is a
parse failure. -/
def parseFieldRecord (msg : String) : Option (String × String) :=
  match msg.splitOn "=" with
  | [] => none
  | [_] => none
  | k :: rest => some (k, String.intercalate "=" rest)

/-- Enumeration loop of `ReadEntry`: each oracle item is either a native
failure (aborting with an error) or a raw `KEY=value` record which must
parse; all successfully parsed records are folded into the field map. -/
def readFields (acc : Fields) : List (Except String String) → Except String Fields
  | [] => Except.ok acc
  | Except.error e :: _ => Except.error ("failed to read message field: " ++ e)
  | Except.ok msg :: rest =>
    match parseFieldRecord msg with
    | none => Except.error "failed to parse field"
    | some (k, v) => readFields (mapSet acc k v) rest

/-- Oracle for one `ReadEntry` invocation: results of the native timestamp,
monotonic, cursor calls and the enumeration stream. -/
structure REOracle where
  realtime : Except String Nat
  monotonic : Except String Nat
  cursorRes : Except String String
  fieldData : List (Except String String)

/-- Go `ReadEntry()`: timestamp, monotonic time, cursor and the complete
field enumeration in program order; the first failure returns the error
and no entry. -/
def ReadEntry (o : REOracle) : Except String Entry :=
  match o.realtime with
  | Except.error e => Except.error ("failed to get realtime timestamp: " ++ e)
  | Except.ok tsUsec =>
    match o.monotonic with
    | Except.error e => Except.error ("failed to get monotonic timestamp: " ++ e)
    | Except.ok monoUsec =>
      match o.cursorRes with
      | Except.error e => Except.error ("failed to read cursor: " ++ e)
      | Except.ok c =>
        match readFields [] o.fieldData with
        | Except.error e => Except.error e
        | Except.ok fl =>
          Except.ok { fields := fl, cursor := c, timestamp := tsUsec * 1000,
                      elapsed := monoUsec }

/-! ### Follow startup (follow.go `Follow`, lines 35-75)

The parent journal operations consulted during startup — `Cursor`,
`SeekTail`, `Previous` and the cursor re-read — are supplied by a
`ParentOracle`.  A Go error is modelled with a flag telling whether
`errors.Is(err, syscall.EADDRNOTAVAIL)` holds.  `Follow` returning
`Except.ok s` models the Go success path: the worker goroutine is spawned
with captured cursor `s.cursor` and flag `s.eof`, and the stop function is
handed to the caller; `Except.error e` models the synchronous error
return, where no goroutine is spawned. -/

/-- Go error value as observed by `Follow`. -/
structure GoErr where
  msg : String
  isAddrNotAvail : Bool
deriving DecidableEq

/-- Results of the parent-journal calls `Follow` can make during startup,
in program order. -/
structure ParentOracle where
  cursorRes : Except GoErr String
  seekTailErr : Option GoErr
  prevRes : Except GoErr Int
  cursorRes2 : Except GoErr String

/-- Data the spawned worker goroutine is started with. -/
structure FollowStarted where
  cursor : String
  eof : Bool
deriving DecidableEq

/-- The Go handler is a value of the function type `FollowHandler`; the
model only distinguishes the `nil` function value (`Option.none`) from a
callable one. -/
def Handler := Unit

/-- Go `h != nil` on the `FollowHandler` parameter. -/
def handlerNotNil (h : Option Handler) : Bool :=
  h.isSome

/-- Go `reflect.ValueOf(h).IsNil()`: for a value of function kind this is
true exactly when the function value is `nil`. -/
def reflectValueIsNil (h : Option Handler) : Bool :=
  h.isNone

/-- The handler-validity guard at the top of `Follow` (follow.go lines
37-39): `h != nil && reflect.ValueOf(h).IsNil()`. -/
def followGuardRejects (h : Option Handler) : Bool :=
  handlerNotNil h && reflectValueIsNil h

/-- Go `Follow(h)` startup logic (follow.go lines 35-75).  After the guard,
the parent cursor is read; on an `EADDRNOTAVAIL` failure the
seek-tail / previous / re-read recovery runs and any failure inside it is
returned synchronously; on any other cursor failure the error is dropped
(no early return exists in that branch) and the worker starts with the
zero-value cursor `""` and `eof = false`. -/
def Follow (h : Option Handler) (o : ParentOracle) : Except GoErr FollowStarted :=
  if followGuardRejects h then
    Except.error { msg := "a follow handler must be provided", isAddrNotAvail := false }
  else
    match o.cursorRes with
    | Except.ok c => Except.ok { cursor := c, eof := false }
    | Except.error e =>
      if e.isAddrNotAvail then
        match o.seekTailErr with
        | some e2 => Except.error e2
        | none =>
          match o.prevRes with
          | Except.error e2 => Except.error e2
          | Except.ok _ =>
            match o.cursorRes2 with
            | Except.error e2 => Except.error e2
            | Except.ok c2 => Except.ok { cursor := c2, eof := true }
      else Except.ok { cursor := "", eof := false }

/-! ### Follow stop function (follow.go lines 65-74)

The stop function wraps `done <- true` (a buffered channel of capacity 1)
in a `sync.Once`.  `StopState.fired` models the once-guard having run;
`signals` counts how many sends were actually performed on the channel. -/

structure StopState where
  fired : Bool
  signals : Nat
deriving DecidableEq

/-- One invocation of the returned `FollowStop` function: the body runs
only when the `sync.Once` has not fired yet, and performs exactly one
channel send. -/
def stopOnce (s : StopState) : StopState :=
  if s.fired then s else { fired := true, signals := s.signals + 1 }

/-- Calling the stop function `n` times starting from the freshly created
state (`once` untriggered, no signal sent). -/
def stopIter : Nat → StopState
  | 0 => { fired := false, signals := 0 }
  | n + 1 => stopOnce (stopIter n)

/-! ### Follow worker loop (follow.go `followJournal`, lines 77-154)

The worker's journal view is modelled as the list `store` of the cursor
tokens of all entries it will ever see through its filters, in the
store's monotonic cursor order; a position `p` means the `p`-th entry is
the one the next successful `Next` will move onto, matching the
sd-journal convention that `SeekCursor` parks the iterator so that the
following `Next` lands on the sought entry.  Native failures of
`Open`/`AddMatch`/`SeekCursor`/`Next`/`ReadEntry`/`Wait` are injected by
a `WOracle`, indexed by per-operation call counters.  The one-shot `done`
channel is modelled by `stopAt`: `some n` means the stop signal is
observable from the `n`-th cancellation checkpoint onwards (once sent it
stays available until consumed, and consuming it terminates the loop). -/

/-- Outcome of one `Wait` call inside the worker loop. -/
inductive WaitOut where
  | fail (msg : String)
  | nop
  | wake
deriving DecidableEq

/-- One callback invocation `h(entry, err)` of the worker: a delivered
entry (identified by its cursor token), the terminal stop notification
`ErrFollowStopped`, or a terminal failure. -/
inductive HCall where
  | entry (c : Nat)
  | stopped
  | fail (msg : String)
deriving DecidableEq

/-- Native-failure injection for one worker run. -/
structure WOracle where
  openErr : Option String
  addMatchErr : Nat → Option String
  seekErr : Option String
  nextErr : Nat → Option String
  readErr : Nat → Option String
  waitOut : Nat → WaitOut

/-- Whether the `select` on `done` at cancellation checkpoint number `cp`
finds the stop signal available. -/
def stopAvail (stopAt : Option Nat) (cp : Nat) : Bool :=
  match stopAt with
  | none => false
  | some n => n ≤ cp

/-- The `exit` loop of `followJournal` (follow.go lines 107-152), fuelled.
Mode `true` is the outer loop (streaming): call `Next`; on a positive
count check `done` and then read and deliver the entry; on zero fall into
the wait loop.  Mode `false` is the inner loop (waiting): check `done`,
then `Wait`; `NoOperation` stays in the wait loop, any other wakeup
returns to streaming.  `p` is the position, `nk`/`wk`/`rk` the
`Next`/`Wait`/`ReadEntry` call counters, `cp` the checkpoint counter. -/
def runFollowLoop (o : WOracle) (store : List Nat) (stopAt : Option Nat) :
    Nat → Bool → Nat → Nat → Nat → Nat → Nat → List HCall
  | 0, _, _, _, _, _, _ => []
  | fuel + 1, true, p, nk, wk, rk, cp =>
    match o.nextErr nk with
    | some e => [HCall.fail ("failed to move cursor to next entry: " ++ e)]
    | none =>
      if h : p < store.length then
        if stopAvail stopAt cp then [HCall.stopped]
        else
          match o.readErr rk with
          | some e => [HCall.fail ("failed to read entry: " ++ e)]
          | none =>
            HCall.entry (store.get ⟨p, h⟩) ::
              runFollowLoop o store stopAt fuel true (p + 1) (nk + 1) wk (rk + 1) (cp + 1)
      else runFollowLoop o store stopAt fuel false p (nk + 1) wk rk cp
  | fuel + 1, false, p, nk, wk, rk, cp =>
    if stopAvail stopAt cp then [HCall.stopped]
    else
      match o.waitOut wk with
      | WaitOut.fail e => [HCall.fail ("failed to wait for new entries: " ++ e)]
      | WaitOut.nop => runFollowLoop o store stopAt fuel false p nk (wk + 1) rk (cp + 1)
      | WaitOut.wake => runFollowLoop o store stopAt fuel true p nk (wk + 1) rk (cp + 1)

/-- Position of the worker iterator right before the `exit` loop:
`SeekCursor` parks it at the index of the captured cursor, and when `eof`
is set the single extra `Next` (follow.go lines 100-105) advances it one
step (staying put at end of store, where that `Next` returns 0). -/
def followInitialPos (store : List Nat) (cursor : Nat) (eof : Bool) : Nat :=
  let p := store.indexOf cursor
  if eof then (if p < store.length then p + 1 else p) else p

/-- Go `followJournal(h, done, cursor, matches, eof)`: open a fresh
journal, replay the parent's matches in order, seek to the captured
cursor, perform one extra `Next` when `eof` is set, then run the `exit`
loop.  Every failure before the loop delivers one error callback and
returns. -/
def followJournal (o : WOracle) (store : List Nat) (stopAt : Option Nat)
    (ms : List Match) (cursor : Nat) (eof : Bool) (fuel : Nat) : List HCall :=
  match o.openErr with
  | some e => [HCall.fail e]
  | none =>
    match (List.range ms.length).findSome? (fun k => o.addMatchErr k) with
    | some e => [HCall.fail ("failed to add match: " ++ e)]
    | none =>
      match o.seekErr with
      | some e => [HCall.fail ("failed to seek to cursor: " ++ e)]
      | none =>
        if eof then
          match o.nextErr 0 with
          | some e => [HCall.fail ("failed move cursor to next position: " ++ e)]
          | none =>
            runFollowLoop o store stopAt fuel true
              (followInitialPos store cursor true) 1 0 0 0
        else
          runFollowLoop o store stopAt fuel true
            (followInitialPos store cursor false) 0 0 0 0

/-- First entry delivered in a worker callback trace, if any. -/
def firstEntry : List HCall → Option Nat
  | [] => none
  | HCall.entry c :: _ => some c
  | HCall.stopped :: rest => firstEntry rest
  | HCall.fail _ :: rest => firstEntry rest

/-- Recognizer for the terminal stop notification. -/
def isStopped : HCall → Bool
  | HCall.stopped => true
  | _ => false

/-! ## Helper lemmas -/

/-- The handler guard of `Follow` can never fire: for a value of a Go
function type, `h != nil` and `reflect.ValueOf(h).IsNil()` are exact
negations of each other. -/
theorem followGuardRejects_false (h : Option Handler) :
    followGuardRejects h = false := by
  cases h <;> rfl

/-- A successful lookup identifies an element of the association list. -/
theorem lookup_mem : ∀ {f : Fields} {k v : String},
    f.lookup k = some v → (k, v) ∈ f := by
  intro f
  induction f with
  | nil => intro k v h; simp [List.lookup] at h
  | cons kv rest ih =>
    intro k v h
    obtain ⟨k1, v1⟩ := kv
    rw [List.lookup] at h
    by_cases hk : k = k1
    · subst hk
      simp at h
      subst h
      exact List.mem_cons_self _ _
    · have hbeq : (k == k1) = false := beq_eq_false_iff_ne.mpr hk
      rw [hbeq] at h
      exact List.mem_cons_of_mem _ (ih h)

/-- An invalid field name anywhere in the map makes the validation loop
fail before the native write. -/
theorem buildIovec_error_of_mem : ∀ {f : Fields} {k v : String},
    (k, v) ∈ f → (validateField k).isSome →
    ∃ e, buildIovec f = Except.error e := by
  intro f
  induction f with
  | nil => intro k v hmem _; cases hmem
  | cons kv rest ih =>
    intro k v hmem hbad
    obtain ⟨k1, v1⟩ := kv
    rcases List.mem_cons.mp hmem with hh | ht
    · cases hh
      rw [Option.isSome_iff_exists] at hbad
      obtain ⟨e, he⟩ := hbad
      exact ⟨e, by rw [buildIovec, he]⟩
    · rw [buildIovec]
      cases hv : validateField k1 with
      | some e => exact ⟨e, rfl⟩
      | none =>
        obtain ⟨e, he⟩ := ih ht hbad
        exact ⟨e, by rw [he]⟩

/-- A successful validation pass puts every field of the map into the
iovec of the native write. -/
theorem buildIovec_ok_mem : ∀ {f : Fields} {l : List String},
    buildIovec f = Except.ok l →
    ∀ {k v : String}, (k, v) ∈ f → (k ++ "=" ++ v) ∈ l := by
  intro f
  induction f with
  | nil => intro l _ k v hmem; cases hmem
  | cons kv rest ih =>
    intro l hok k v hmem
    obtain ⟨k1, v1⟩ := kv
    rw [buildIovec] at hok
    cases hv : validateField k1 with
    | some e => rw [hv] at hok; cases hok
    | none =>
      rw [hv] at hok
      cases hrest : buildIovec rest with
      | error e => rw [hrest] at hok; cases hok
      | ok l1 =>
        rw [hrest] at hok
        cases hok
        rcases List.mem_cons.mp hmem with hh | ht
        · cases hh
          exact List.mem_cons_self _ _
        · exact List.mem_cons_of_mem _ (ih hrest ht)

/-- Membership in a field map survives the default-field insertions. -/
theorem mem_addDefault {f : Fields} {k v : String} (h : (k, v) ∈ f)
    (k2 v2 : String) : (k, v) ∈ addDefault f k2 v2 := by
  unfold addDefault
  split
  · exact h
  · exact List.mem_append_left _ h

/-- When the key is already present, the default insertion is the
identity. -/
theorem addDefault_of_has {f : Fields} {k : String} (h : fieldsHas f k = true)
    (v : String) : addDefault f k v = f := by
  unfold addDefault
  rw [if_pos h]

/-! ## Claim C3 — Wait timeout conversion -/

/-- Claim C3 counterexample: the negative timeout `-2` (a `time.Duration`
of -2 nanoseconds) is not treated as the block-forever sentinel; `Wait`
passes a native timeout of `0` microseconds to `sd_journal_wait`, the
opposite of blocking indefinitely. -/
theorem wait_negative_two_gives_zero_timeout :
    (-2 : Int) < 0 ∧ (Wait (fun _ => 0) (-2)).1 = 0 ∧
      (Wait (fun _ => 0) (-2)).1 ≠ 2 ^ 64 - 1 := by
  exact ⟨by norm_num, by decide, by decide⟩

/-- Claim C3 (amended): only the exact sentinel value `-1` makes `Wait`
block indefinitely (native timeout `MaxUint64`); every other negative
timeout is converted by truncating division by 1000 and unsigned
wrap-around, so negative durations in the open interval (-1000, -1)
nanoseconds become a zero native timeout. -/
theorem wait_timeout_sentinel_only_minus_one :
    waitTimeoutToUsec (-1) = 2 ^ 64 - 1 ∧
    (∀ t : Int, -1000 < t → t < -1 → waitTimeoutToUsec t = 0) ∧
    (∀ t : Int, t ≠ -1 → waitTimeoutToUsec t = uint64Of (t.tdiv 1000)) := by
  refine ⟨by simp [waitTimeoutToUsec], ?_, ?_⟩
  · intro t h1 h2
    have hne : t ≠ -1 := by omega
    have htd : t.tdiv 1000 = 0 := by
      have hneg : t = -(-t) := by omega
      rw [hneg, Int.neg_tdiv, Int.tdiv_eq_zero_of_lt (by omega) (by omega)]
      rfl
    rw [waitTimeoutToUsec, if_neg hne, htd]
    rfl
  · intro t hne
    rw [waitTimeoutToUsec, if_neg hne]

/-- Claim C3 witness: instantiating the amended statement at the concrete
negative timeout `-5`. -/
theorem wait_timeout_sentinel_only_minus_one_witness :
    waitTimeoutToUsec (-1) = 2 ^ 64 - 1 ∧ waitTimeoutToUsec (-5) = 0 :=
  ⟨wait_timeout_sentinel_only_minus_one.1,
   wait_timeout_sentinel_only_minus_one.2.1 (-5) (by norm_num) (by norm_num)⟩

/-! ## Claim C2 — operations after Close -/

/-- Claim C2 counterexample: starting from a fresh handle, calling `Close`
twice performs the native release twice (not once), and a `Next` issued
after `Close` is forwarded to the native handle and succeeds with the
native result instead of failing with the `ClosedHandle` terminal
error. -/
theorem close_twice_and_next_after_close :
    (Close (Close { closeCalls := 0, nextCalls := 0 })).closeCalls = 2 ∧
    (Next (fun _ => 1) (Close { closeCalls := 0, nextCalls := 0 })).2 =
      Except.ok 1 := by
  exact ⟨rfl, rfl⟩

/-- Claim C2 (amended): the `Journal` carries no closed flag.  `Close`
invokes the native `sd_journal_close` unconditionally, so a double
`Close` releases the handle twice; `Next` performs its native call
whether or not `Close` already ran and its result is never the
specification's `ClosedHandle` error. -/
theorem close_has_no_guard (j : GoJournal) (nativeNext : GoJournal → Int) :
    (Close (Close j)).closeCalls = j.closeCalls + 2 ∧
    (Next nativeNext (Close j)).2 ≠ Except.error JErr.closedHandle ∧
    (Next nativeNext (Close j)).1.nextCalls = j.nextCalls + 1 := by
  refine ⟨rfl, ?_, ?_⟩
  · unfold Next
    dsimp only
    split <;> simp
  · unfold Next
    dsimp only
    split <;> rfl

/-! ## Claim C7 — ReadEntry is all-or-nothing -/

/-- Claim C7: `ReadEntry` returns an entry exactly when the timestamp
read, the monotonic read, the cursor read and the complete field
enumeration all succeed, and the entry then carries precisely those four
components; every failure path yields an error and no entry, so a
partially populated entry is impossible. -/
theorem readEntry_all_or_nothing (o : REOracle) (ent : Entry) :
    ReadEntry o = Except.ok ent ↔
      ∃ t u c fl,
        o.realtime = Except.ok t ∧ o.monotonic = Except.ok u ∧
        o.cursorRes = Except.ok c ∧ readFields [] o.fieldData = Except.ok fl ∧
        ent = { fields := fl, cursor := c, timestamp := t * 1000, elapsed := u } := by
  obtain ⟨rt, mono, cur, fd⟩ := o
  unfold ReadEntry
  dsimp only
  cases rt with
  | error e => simp
  | ok t =>
    cases mono with
    | error e => simp
    | ok u =>
      cases cur with
      | error e => simp
      | ok c =>
        cases hf : readFields [] fd with
        | error e => simp [hf]
        | ok fl =>
          simp only [hf, Except.ok.injEq]
          constructor
          · rintro rfl
            exact ⟨t, u, c, fl, rfl, rfl, rfl, rfl, rfl⟩
          · rintro ⟨t1, u1, c1, fl1, ht, hu, hc, hfl, he⟩
            cases ht; cases hu; cases hc
            cases hfl
            exact he.symm

/-! ## Claim C10 — handler-validity guard -/

/-- Claim C10: the guard `h != nil && reflect.ValueOf(h).IsNil()` rejects
a handler exactly when it is a non-nil function value whose underlying
value is nil — a condition no value of the function type satisfies, so
the guard never fires; in particular the plain `nil` literal passes it,
and `Follow(nil)` returns no error and spawns the worker whenever the
startup cursor read succeeds. -/
theorem follow_guard_never_rejects :
    (∀ h : Option Handler,
      (followGuardRejects h = true ↔
        (handlerNotNil h = true ∧ reflectValueIsNil h = true)) ∧
      followGuardRejects h = false) ∧
    (∀ (o : ParentOracle) (c : String), o.cursorRes = Except.ok c →
      Follow none o = Except.ok { cursor := c, eof := false }) := by
  constructor
  · intro h
    refine ⟨?_, followGuardRejects_false h⟩
    unfold followGuardRejects
    rw [Bool.and_eq_true]
  · intro o c hc
    unfold Follow
    rw [followGuardRejects_false, hc]
    rfl

/-- Claim C10 witness: `Follow` invoked with the `nil` handler literal on
a parent whose cursor read succeeds returns no error and starts the
worker at the read cursor. -/
theorem follow_guard_never_rejects_witness :
    Follow none
        { cursorRes := Except.ok "c0", seekTailErr := none,
          prevRes := Except.ok 1, cursorRes2 := Except.ok "c0" } =
      Except.ok { cursor := "c0", eof := false } :=
  follow_guard_never_rejects.2
    { cursorRes := Except.ok "c0", seekTailErr := none,
      prevRes := Except.ok 1, cursorRes2 := Except.ok "c0" } "c0" rfl

/-! ## Claim C1 — non-EADDRNOTAVAIL cursor failure at Follow startup -/

/-- Claim C1 counterexample: with a handler provided and the parent
cursor read failing with an error that is not `EADDRNOTAVAIL` (here
`EBADF`), `Follow` does not return the error synchronously: it returns
success, spawning the worker with the zero-value cursor and `eof`
unset. -/
theorem follow_cursor_error_not_synchronous :
    Follow (some ())
        { cursorRes := Except.error { msg := "bad file descriptor", isAddrNotAvail := false },
          seekTailErr := none, prevRes := Except.ok 1, cursorRes2 := Except.ok "c" } =
      Except.ok { cursor := "", eof := false } := rfl

/-- Claim C1 (amended): a cursor-read failure that is not
`EADDRNOTAVAIL` is silently dropped — `Follow` returns no error and
spawns the worker with the empty cursor and `eof` unset; only a failure
inside the `EADDRNOTAVAIL` recovery sequence (here: the seek-tail step)
aborts startup and surfaces the error synchronously. -/
theorem follow_cursor_error_swallowed (h : Option Handler) :
    (∀ (o : ParentOracle) (e : GoErr), o.cursorRes = Except.error e →
      e.isAddrNotAvail = false →
      Follow h o = Except.ok { cursor := "", eof := false }) ∧
    (∀ (o : ParentOracle) (e e2 : GoErr), o.cursorRes = Except.error e →
      e.isAddrNotAvail = true → o.seekTailErr = some e2 →
      Follow h o = Except.error e2) := by
  constructor
  · intro o e hc hna
    unfold Follow
    rw [followGuardRejects_false, hc]
    simp [hna]
  · intro o e e2 hc hna hst
    unfold Follow
    rw [followGuardRejects_false, hc]
    simp [hna, hst]

/-- Claim C1 witness: both branches of the amended statement at concrete
inputs — an `EBADF` cursor failure is swallowed (worker spawned), and a
seek-tail failure during `EADDRNOTAVAIL` recovery aborts startup. -/
theorem follow_cursor_error_swallowed_witness :
    Follow (some ())
        { cursorRes := Except.error { msg := "bad file descriptor", isAddrNotAvail := false },
          seekTailErr := none, prevRes := Except.ok 0, cursorRes2 := Except.ok "z" } =
      Except.ok { cursor := "", eof := false } ∧
    Follow (some ())
        { cursorRes := Except.error { msg := "address not available", isAddrNotAvail := true },
          seekTailErr := some { msg := "seek failed", isAddrNotAvail := false },
          prevRes := Except.ok 0, cursorRes2 := Except.ok "z" } =
      Except.error { msg := "seek failed", isAddrNotAvail := false } :=
  ⟨(follow_cursor_error_swallowed (some ())).1 _ _ rfl rfl,
   (follow_cursor_error_swallowed (some ())).2 _ _ _ rfl rfl rfl⟩

/-! ## Claim C4 — SubmitWithFields validation -/

/-- Claim C4: whenever the caller-supplied field map contains a field
name that is empty, starts with the reserved underscore, or is not
entirely upper-case, `SubmitWithFields` fails with a validation error;
the error result models returning before the single native
`sd_journal_sendv`, so no write — not even a partial one — is
performed. -/
theorem submitWithFields_invalid_field_rejected (p : Int) (m : String)
    (f : Fields) (k v : String) (hmem : (k, v) ∈ f)
    (hbad : (validateField k).isSome) :
    ∃ e, SubmitWithFields p m (some f) = Except.error e := by
  unfold SubmitWithFields
  exact buildIovec_error_of_mem
    (mem_addDefault (mem_addDefault hmem FieldPriority (toString p)) FieldMessage m) hbad

/-- Claim C4 witness: the documented example — a field named `"_foo"`
fails validation with no write, and so does the lower-case name
`"custom"` (the code rejects rather than case-normalizes). -/
theorem submitWithFields_invalid_field_rejected_witness :
    (("_foo", "x") ∈ ([("_foo", "x")] : Fields) ∧
      (validateField "_foo").isSome = true ∧
      (∃ e, SubmitWithFields 6 "msg" (some [("_foo", "x")]) = Except.error e)) ∧
    (∃ e, SubmitWithFields 6 "msg" (some [("custom", "y")]) = Except.error e) :=
  ⟨⟨List.mem_cons_self _ _, by decide,
    submitWithFields_invalid_field_rejected 6 "msg" _ "_foo" "x"
      (List.mem_cons_self _ _) (by decide)⟩,
   submitWithFields_invalid_field_rejected 6 "msg" _ "custom" "y"
     (List.mem_cons_self _ _) (by decide)⟩

/-! ## Claim C9 — caller-supplied PRIORITY/MESSAGE win -/

/-- A successful lookup in a prefix stays successful after appending. -/
theorem lookup_append_of_some : ∀ {f : Fields} {k v : String},
    f.lookup k = some v → ∀ g : Fields, (f ++ g).lookup k = some v := by
  intro f
  induction f with
  | nil => intro k v h; simp [List.lookup] at h
  | cons kv rest ih =>
    intro k v h g
    obtain ⟨k1, v1⟩ := kv
    rw [List.lookup] at h
    rw [List.cons_append, List.lookup]
    cases hk : k == k1
    · rw [hk] at h
      exact ih h g
    · rw [hk] at h
      exact h

/-- Key presence survives the default-field insertions. -/
theorem fieldsHas_addDefault {f : Fields} {k : String}
    (h : fieldsHas f k = true) (k2 v2 : String) :
    fieldsHas (addDefault f k2 v2) k = true := by
  unfold addDefault
  split
  · exact h
  · unfold fieldsHas at h ⊢
    rw [Option.isSome_iff_exists] at h
    obtain ⟨v, hv⟩ := h
    rw [lookup_append_of_some hv]
    rfl

/-- Claim C9: whenever the caller's field map already defines the
priority field, the explicit priority argument has no effect on the call
and any successful write carries the caller-supplied priority value; and
symmetrically for the message field and the explicit message argument —
each field independently, so single-field maps are covered. -/
theorem submitWithFields_caller_field_wins (p q : Int) (m n : String)
    (f : Fields) :
    (∀ vp, f.lookup FieldPriority = some vp →
      SubmitWithFields p m (some f) = SubmitWithFields q m (some f) ∧
      ∀ l, SubmitWithFields p m (some f) = Except.ok l →
        (FieldPriority ++ "=" ++ vp) ∈ l) ∧
    (∀ vm, f.lookup FieldMessage = some vm →
      SubmitWithFields p m (some f) = SubmitWithFields p n (some f) ∧
      ∀ l, SubmitWithFields p m (some f) = Except.ok l →
        (FieldMessage ++ "=" ++ vm) ∈ l) := by
  constructor
  · intro vp hp
    have hasP : fieldsHas f FieldPriority = true := by
      unfold fieldsHas
      rw [hp]
      rfl
    have hplain : ∀ p0 : Int,
        SubmitWithFields p0 m (some f) = buildIovec (addDefault f FieldMessage m) := by
      intro p0
      unfold SubmitWithFields
      dsimp only
      rw [addDefault_of_has hasP]
    constructor
    · rw [hplain, hplain]
    · intro l hok
      rw [hplain] at hok
      exact buildIovec_ok_mem hok (mem_addDefault (lookup_mem hp) FieldMessage m)
  · intro vm hm
    have hasM2 : fieldsHas (addDefault f FieldPriority (toString p)) FieldMessage = true :=
      fieldsHas_addDefault (by unfold fieldsHas; rw [hm]; rfl) FieldPriority (toString p)
    have hplain : ∀ m0 : String,
        SubmitWithFields p m0 (some f) =
          buildIovec (addDefault f FieldPriority (toString p)) := by
      intro m0
      unfold SubmitWithFields
      dsimp only
      rw [addDefault_of_has hasM2]
    constructor
    · rw [hplain, hplain]
    · intro l hok
      rw [hplain] at hok
      exact buildIovec_ok_mem hok
        (mem_addDefault (lookup_mem hm) FieldPriority (toString p))

/-- Claim C9 witness: two single-field maps.  With only `PRIORITY`
present, changing the priority argument from 3 to 5 leaves the call
unchanged and the write carries the caller's `PRIORITY=7`; with only
`MESSAGE` present, changing the message argument leaves the call
unchanged and the write carries the caller's `MESSAGE=kept`. -/
theorem submitWithFields_caller_field_wins_witness :
    (SubmitWithFields 3 "msg" (some [("PRIORITY", "7")]) =
       SubmitWithFields 5 "msg" (some [("PRIORITY", "7")]) ∧
     "PRIORITY=7" ∈ ["PRIORITY=7", "MESSAGE=msg"]) ∧
    (SubmitWithFields 3 "ignored" (some [("MESSAGE", "kept")]) =
       SubmitWithFields 3 "other" (some [("MESSAGE", "kept")]) ∧
     "MESSAGE=kept" ∈ ["MESSAGE=kept", "PRIORITY=3"]) :=
  ⟨⟨((submitWithFields_caller_field_wins 3 5 "msg" "msg" [("PRIORITY", "7")]).1
       "7" rfl).1,
    ((submitWithFields_caller_field_wins 3 5 "msg" "msg" [("PRIORITY", "7")]).1
       "7" rfl).2 ["PRIORITY=7", "MESSAGE=msg"] rfl⟩,
   ⟨((submitWithFields_caller_field_wins 3 3 "ignored" "other" [("MESSAGE", "kept")]).2
       "kept" rfl).1,
    ((submitWithFields_caller_field_wins 3 3 "ignored" "other" [("MESSAGE", "kept")]).2
       "kept" rfl).2 ["MESSAGE=kept", "PRIORITY=3"] rfl⟩⟩

/-! ## Claim C8 — AddMatch rejects empty matches, compiles in order -/

/-- The per-node checked value never signals failure when every native
call succeeds. -/
theorem foldl_native_nonneg (native : NativeFilterOp → Int)
    (hok : ∀ op, 0 ≤ native op) :
    ∀ (ops : List NativeFilterOp) (init : Int), 0 ≤ init →
      0 ≤ ops.foldl (fun _ op => native op) init
  | [], _, h => h
  | op :: rest, _, _ => foldl_native_nonneg native hok rest (native op) (hok op)

/-- When every native filter call succeeds, the `AddMatch` loop pushes the
compiled nodes in declaration order and finally appends the match to the
retained list. -/
theorem addMatchLoop_all_ok (native : NativeFilterOp → Int)
    (hok : ∀ op, 0 ≤ native op) (m : Match) :
    ∀ (es : List MatchExpr) (j : JFilterState),
      addMatchLoop native j m es =
        ({ nativeStack := j.nativeStack ++ compileMatch es,
           matchList := j.matchList ++ [m] }, Except.ok ()) := by
  intro es
  induction es with
  | nil =>
    intro j
    rw [addMatchLoop, compileMatch]
    simp
  | cons e rest ih =>
    intro j
    rw [addMatchLoop]
    rw [if_neg (by
      have := foldl_native_nonneg native hok (compileExpr e) 0 le_rfl
      omega)]
    rw [ih, compileMatch]
    simp [List.append_assoc]

/-- Claim C8: `AddMatch` on a `nil` match or on a match with no
expression nodes fails with the empty-match validation error and leaves
both the native filter stack and the retained match list untouched; on a
non-empty match with all native calls succeeding, the nodes are compiled
onto the native stack in declaration order and the match is appended to
the retained list. -/
theorem addMatch_empty_rejected (native : NativeFilterOp → Int)
    (j : JFilterState) (m : Match) (hne : m.expr ≠ [])
    (hok : ∀ op, 0 ≤ native op) :
    AddMatch native j none = (j, Except.error "no match expression to add") ∧
    AddMatch native j (some { expr := [] }) =
      (j, Except.error "no match expression to add") ∧
    AddMatch native j (some m) =
      ({ nativeStack := j.nativeStack ++ compileMatch m.expr,
         matchList := j.matchList ++ [m] }, Except.ok ()) := by
  refine ⟨rfl, rfl, ?_⟩
  show (if m.expr = [] then (j, Except.error "no match expression to add")
        else addMatchLoop native j m m.expr) = _
  rw [if_neg hne]
  exact addMatchLoop_all_ok native hok m m.expr j

/-- Claim C8 witness: a one-node match `UNIT=sshd.service` applied to a
journal with one retained match, with a native oracle accepting every
call. -/
theorem addMatch_empty_rejected_witness :
    AddMatch (fun _ => 0) { nativeStack := [], matchList := [] } none =
      ({ nativeStack := [], matchList := [] },
        Except.error "no match expression to add") ∧
    AddMatch (fun _ => 0) { nativeStack := [], matchList := [] }
        (some { expr := [{ op := MatchOp.opField, field := "UNIT",
                           values := ["sshd.service"] }] }) =
      ({ nativeStack := [NativeFilterOp.addMatch "UNIT=sshd.service"],
         matchList := [{ expr := [{ op := MatchOp.opField, field := "UNIT",
                                    values := ["sshd.service"] }] }] },
        Except.ok ()) := by
  have h := addMatch_empty_rejected (fun _ => 0)
    { nativeStack := [], matchList := [] }
    { expr := [{ op := MatchOp.opField, field := "UNIT",
                 values := ["sshd.service"] }] }
    (by simp) (fun op => le_rfl)
  exact ⟨h.1, h.2.2⟩

/-! ## Claim C5 — stop function idempotence, single stop notification -/

/-- The stop state after `n` invocations: untouched for `n = 0`, fired
with exactly one channel send for every `n ≥ 1`. -/
theorem stopIter_eq : ∀ n : Nat, stopIter n =
    if n = 0 then { fired := false, signals := 0 }
    else { fired := true, signals := 1 }
  | 0 => rfl
  | n + 1 => by
    rw [stopIter, stopIter_eq n]
    cases n <;> simp [stopOnce]

/-- Every callback trace of the worker loop contains at most one terminal
stop notification. -/
theorem runFollowLoop_stopped_le_one (o : WOracle) (store : List Nat)
    (stopAt : Option Nat) :
    ∀ (fuel : Nat) (mode : Bool) (p nk wk rk cp : Nat),
      (runFollowLoop o store stopAt fuel mode p nk wk rk cp).countP isStopped ≤ 1 := by
  intro fuel
  induction fuel with
  | zero =>
    intro mode p nk wk rk cp
    cases mode <;> simp [runFollowLoop]
  | succ fuel ih =>
    intro mode p nk wk rk cp
    cases mode
    · rw [runFollowLoop]
      split
      · simp [isStopped]
      · split <;> simp [isStopped, ih]
    · rw [runFollowLoop]
      split
      · simp [isStopped]
      · split
        · split
          · simp [isStopped]
          · split
            · simp [isStopped]
            · rw [List.countP_cons_of_neg _ _ (by simp [isStopped])]
              exact ih ..
        · exact ih ..

/-- Claim C5: the stop function returned by `Follow` is idempotent — a
second invocation is a no-op of the `sync.Once` guard, so any number of
invocations sends at most one signal on the one-shot channel (no panic,
no double release) — and every possible worker run delivers the terminal
`ErrFollowStopped` notification at most once. -/
theorem follow_stop_idempotent :
    (∀ s : StopState, stopOnce (stopOnce s) = stopOnce s) ∧
    (∀ n : Nat, (stopIter n).signals ≤ 1) ∧
    (∀ (o : WOracle) (store : List Nat) (stopAt : Option Nat)
        (ms : List Match) (cursor : Nat) (eof : Bool) (fuel : Nat),
      (followJournal o store stopAt ms cursor eof fuel).countP isStopped ≤ 1) := by
  refine ⟨?_, ?_, ?_⟩
  · intro s
    by_cases hf : s.fired <;> simp [stopOnce, hf]
  · intro n
    rw [stopIter_eq]
    cases n <;> simp
  · intro o store stopAt ms cursor eof fuel
    unfold followJournal
    split
    · simp [isStopped]
    · split
      · simp [isStopped]
      · split
        · simp [isStopped]
        · split
          · split
            · simp [isStopped]
            · exact runFollowLoop_stopped_le_one ..
          · exact runFollowLoop_stopped_le_one ..

/-! ## Claim C6 — first entry after atEOF startup is strictly newer -/

/-- Every entry the worker loop delivers comes from a store position at or
after the position the loop started from. -/
theorem runFollowLoop_entry_from_position (o : WOracle) (store : List Nat)
    (stopAt : Option Nat) :
    ∀ (fuel : Nat) (mode : Bool) (p nk wk rk cp e : Nat),
      firstEntry (runFollowLoop o store stopAt fuel mode p nk wk rk cp) = some e →
      ∃ q, p ≤ q ∧ ∃ hq : q < store.length, store.get ⟨q, hq⟩ = e := by
  intro fuel
  induction fuel with
  | zero =>
    intro mode p nk wk rk cp e h
    cases mode <;> simp [runFollowLoop, firstEntry] at h
  | succ fuel ih =>
    intro mode p nk wk rk cp e h
    cases mode
    · rw [runFollowLoop] at h
      rcases hs : stopAvail stopAt cp with _ | _ <;> rw [hs] at h
      · rcases hw : o.waitOut wk with _ | _ | _ <;> rw [hw] at h
        · simp [firstEntry] at h
        · exact ih _ _ _ _ _ _ _ h
        · exact ih _ _ _ _ _ _ _ h
      · simp [firstEntry] at h
    · rw [runFollowLoop] at h
      rcases hn : o.nextErr nk with _ | _ <;> rw [hn] at h
      · by_cases hp : p < store.length
        · rw [dif_pos hp] at h
          rcases hs : stopAvail stopAt cp with _ | _ <;> rw [hs] at h
          · rcases hr : o.readErr rk with _ | _ <;> rw [hr] at h
            · simp only [firstEntry, Option.some.injEq] at h
              exact ⟨p, le_rfl, hp, h⟩
            · simp [firstEntry] at h
          · simp [firstEntry] at h
        · rw [dif_neg hp] at h
          exact ih _ _ _ _ _ _ _ h
      · simp [firstEntry] at h

/-- Claim C6: when the worker starts with `atEOF` set, the single extra
`Next` after seeking to the captured cursor advances the position exactly
one step past the cursor's entry, and therefore the first entry the
worker delivers — if it delivers any — has a cursor strictly greater than
the cursor observed at start time (cursors being strictly increasing in
store order). -/
theorem follow_eof_first_entry_strictly_newer (o : WOracle) (store : List Nat)
    (stopAt : Option Nat) (ms : List Match) (cursor : Nat) (fuel : Nat) (e : Nat)
    (hsorted : store.Pairwise (· < ·)) (hmem : cursor ∈ store)
    (hfe : firstEntry (followJournal o store stopAt ms cursor true fuel) = some e) :
    followInitialPos store cursor true = store.indexOf cursor + 1 ∧ cursor < e := by
  have hi : store.indexOf cursor < store.length := List.indexOf_lt_length.mpr hmem
  have hpos : followInitialPos store cursor true = store.indexOf cursor + 1 := by
    unfold followInitialPos
    simp [hi]
  refine ⟨hpos, ?_⟩
  unfold followJournal at hfe
  rcases ho : o.openErr with _ | _ <;> rw [ho] at hfe
  · rcases ha : (List.range ms.length).findSome? (fun k => o.addMatchErr k) with _ | _ <;>
      rw [ha] at hfe
    · rcases hsk : o.seekErr with _ | _ <;> rw [hsk] at hfe
      · rw [if_pos rfl] at hfe
        rcases hn : o.nextErr 0 with _ | _ <;> rw [hn] at hfe
        · obtain ⟨q, hq1, hq2, hq3⟩ :=
            runFollowLoop_entry_from_position o store stopAt fuel true
              (followInitialPos store cursor true) 1 0 0 0 e hfe
          rw [hpos] at hq1
          have hcur : store.get ⟨store.indexOf cursor, hi⟩ = cursor :=
            List.indexOf_get hi
          have hlt : store.get ⟨store.indexOf cursor, hi⟩ < store.get ⟨q, hq2⟩ :=
            List.pairwise_iff_get.mp hsorted ⟨store.indexOf cursor, hi⟩ ⟨q, hq2⟩
              (by simp only [Fin.mk_lt_mk]; omega)
          rw [hcur, hq3] at hlt
          exact hlt
        · simp [firstEntry] at hfe
      · simp [firstEntry] at hfe
    · simp [firstEntry] at hfe
  · simp [firstEntry] at hfe

/-- Claim C6 witness: a three-entry store with strictly increasing
cursors 10, 20, 30; starting at cursor 20 with `atEOF` set, the worker
seeks to index 1, advances once, and the first delivered entry is 30,
strictly newer than 20. -/
theorem follow_eof_first_entry_strictly_newer_witness :
    followInitialPos [10, 20, 30] 20 true = List.indexOf 20 [10, 20, 30] + 1 ∧
      20 < 30 :=
  follow_eof_first_entry_strictly_newer
    { openErr := none, addMatchErr := fun _ => none, seekErr := none,
      nextErr := fun _ => none, readErr := fun _ => none,
      waitOut := fun _ => WaitOut.wake }
    [10, 20, 30] none [] 20 4 30 (by decide) (by decide) rfl

end SystemdJournal
